import Mathlib

/-!
Shallow embedding of the browser-side scripts of the EmeraldSecrets
storefront (cart, coupon, affiliate, filter, search and shared utilities).

JavaScript strings are modelled as `List Char`; `null`/`undefined` string
values are modelled with `Option (List Char)`.  A thrown exception is
modelled with `Except Unit`.  Side effects (network requests, toasts,
reloads, navigations, console logging) are collected into a list of
`Effect` values in the order the code performs them; the parsed JSON
response that a `fetch` continuation receives is passed in explicitly as
a `FetchResult`.
-/

namespace Emerald

/-- The whitespace characters recognised by JavaScript's `trim`,
`parseInt` and `parseFloat` (ECMAScript WhiteSpace and LineTerminator). -/
def isJsWhitespace (c : Char) : Bool :=
  c = ' ' ∨ c = '\t' ∨ c = '\n' ∨ c = '\r' ∨ c.toNat = 0xB ∨ c.toNat = 0xC ∨
  c.toNat = 0xA0 ∨ c.toNat = 0xFEFF ∨ c.toNat = 0x1680 ∨
  (0x2000 ≤ c.toNat ∧ c.toNat ≤ 0x200A) ∨ c.toNat = 0x2028 ∨
  c.toNat = 0x2029 ∨ c.toNat = 0x202F ∨ c.toNat = 0x205F ∨ c.toNat = 0x3000

/-- JavaScript `String.prototype.trim`: drop leading and trailing
whitespace. -/
def jsTrimL (cs : List Char) : List Char :=
  ((cs.dropWhile isJsWhitespace).reverse.dropWhile isJsWhitespace).reverse

/-- JavaScript `String.prototype.split(';')`. -/
def splitSemi : List Char → List (List Char)
  | [] => [[]]
  | c :: rest =>
    if c = ';' then [] :: splitSemi rest
    else
      match splitSemi rest with
      | [] => [[c]]
      | s :: ss => (c :: s) :: ss

/-- Does `hay` start with `needle`? -/
def startsWith : List Char → List Char → Bool
  | _, [] => true
  | [], _ :: _ => false
  | a :: hs, b :: ns => a = b && startsWith hs ns

/-- Does `needle` occur as a contiguous substring of `hay`? -/
def occursB (needle : List Char) : List Char → Bool
  | [] => needle.isEmpty
  | c :: rest => startsWith (c :: rest) needle || occursB needle rest

/-- Value of a hexadecimal digit, `none` for a non-hex character. -/
def hexVal (c : Char) : Option Nat :=
  if '0' ≤ c ∧ c ≤ '9' then some (c.toNat - 48)
  else if 'A' ≤ c ∧ c ≤ 'F' then some (c.toNat - 55)
  else if 'a' ≤ c ∧ c ≤ 'f' then some (c.toNat - 87)
  else none

/-- Tokens of a percent-encoded string: either a plain character or a
`%XX` escape holding one byte. -/
inductive PctTok where
  | ch (c : Char)
  | byte (b : Nat)
deriving DecidableEq, Repr

/-- First pass of `decodeURIComponent`: turn each `%XX` escape into a
byte token, leave other characters alone; `none` on a malformed escape
(the `URIError` case). -/
def pctTokenize : List Char → Option (List PctTok)
  | [] => some []
  | '%' :: a :: b :: rest =>
    match hexVal a, hexVal b with
    | some ha, some hb => (PctTok.byte (ha * 16 + hb) :: ·) <$> pctTokenize rest
    | _, _ => none
  | '%' :: _ => none
  | c :: rest => (PctTok.ch c :: ·) <$> pctTokenize rest

/-- Is `b` a UTF-8 continuation byte (`10xxxxxx`)? -/
def isContByte (b : Nat) : Bool := 0x80 ≤ b ∧ b < 0xC0

/-- Second pass of `decodeURIComponent`: reassemble byte tokens into
UTF-8 code points (rejecting overlong forms, surrogates and stray
continuation bytes, as the ECMAScript decoder does). -/
def decodePctToks : List PctTok → Option (List Char)
  | [] => some []
  | PctTok.ch c :: rest => (c :: ·) <$> decodePctToks rest
  | PctTok.byte b0 :: rest =>
    if b0 < 0x80 then (Char.ofNat b0 :: ·) <$> decodePctToks rest
    else if b0 < 0xC2 ∨ 0xF4 < b0 then none
    else if b0 < 0xE0 then
      match rest with
      | PctTok.byte b1 :: rest2 =>
        if isContByte b1 then
          (Char.ofNat ((b0 - 0xC0) * 64 + (b1 - 0x80)) :: ·) <$> decodePctToks rest2
        else none
      | _ => none
    else if b0 < 0xF0 then
      match rest with
      | PctTok.byte b1 :: PctTok.byte b2 :: rest2 =>
        if isContByte b1 && isContByte b2 then
          let cp := (b0 - 0xE0) * 4096 + (b1 - 0x80) * 64 + (b2 - 0x80)
          if cp < 0x800 ∨ (0xD800 ≤ cp ∧ cp ≤ 0xDFFF) then none
          else (Char.ofNat cp :: ·) <$> decodePctToks rest2
        else none
      | _ => none
    else
      match rest with
      | PctTok.byte b1 :: PctTok.byte b2 :: PctTok.byte b3 :: rest2 =>
        if isContByte b1 && isContByte b2 && isContByte b3 then
          let cp := (b0 - 0xF0) * 262144 + (b1 - 0x80) * 4096 +
            (b2 - 0x80) * 64 + (b3 - 0x80)
          if cp < 0x10000 ∨ 0x10FFFF < cp then none
          else (Char.ofNat cp :: ·) <$> decodePctToks rest2
        else none
      | _ => none

/-- JavaScript `decodeURIComponent`; `none` models a thrown `URIError`. -/
def decodeURIComponent (cs : List Char) : Option (List Char) :=
  (pctTokenize cs).bind decodePctToks

/-- The `getCookie` loop body shared by `cart.js` and `affiliate.js`:
scan the split cookie parts, return the decoded value of the first part
whose trimmed form starts with `name=`. -/
def getCookieLoop (name : List Char) : List (List Char) → Except Unit (Option (List Char))
  | [] => Except.ok none
  | part :: rest =>
    let cookie := jsTrimL part
    if cookie.take (name.length + 1) = name ++ ['='] then
      match decodeURIComponent (cookie.drop (name.length + 1)) with
      | some v => Except.ok (some v)
      | none => Except.error ()
    else getCookieLoop name rest

/-- `getCookie(name)` from `cart.js`/`affiliate.js`: if the cookie string
is non-empty, split it on `;`, trim each part and return the decoded
value of the first part matching `name=`; otherwise `null`.  The
`Except` layer models the `URIError` `decodeURIComponent` can throw. -/
def getCookie (cookieString name : List Char) : Except Unit (Option (List Char)) :=
  if cookieString = [] then Except.ok none
  else getCookieLoop name (splitSemi cookieString)

/-- Equality of `Except` values is decidable when both components are. -/
instance {ε α : Type} [DecidableEq ε] [DecidableEq α] : DecidableEq (Except ε α) := fun a b =>
  match a, b with
  | .ok x, .ok y =>
    if h : x = y then isTrue (by rw [h])
    else isFalse (by intro hc; cases hc; exact h rfl)
  | .error x, .error y =>
    if h : x = y then isTrue (by rw [h])
    else isFalse (by intro hc; cases hc; exact h rfl)
  | .ok _, .error _ => isFalse (by intro hc; cases hc)
  | .error _, .ok _ => isFalse (by intro hc; cases hc)

/-- Numeric value of a non-empty decimal digit string. -/
def digitsToNat (ds : List Char) : Nat :=
  ds.foldl (fun a c => a * 10 + (c.toNat - 48)) 0

/-- Numeric value of a hexadecimal digit string. -/
def hexDigitsToNat (ds : List Char) : Nat :=
  ds.foldl (fun a c => a * 16 + ((hexVal c).getD 0)) 0

/-- Is `c` a hexadecimal digit? -/
def isHexDigitChar (c : Char) : Bool := (hexVal c).isSome

/-- JavaScript `parseInt(s)` with no radix argument: skip leading
whitespace, read an optional sign, then either a `0x`/`0X` hexadecimal
literal or a run of decimal digits; `none` models `NaN` (no digits).
Modelled for finite results; the float rounding JavaScript applies to
very large integers is not modelled. -/
def parseIntJs (s : List Char) : Option Int :=
  let s1 := s.dropWhile isJsWhitespace
  let (sign, s2) : Int × List Char :=
    match s1 with
    | '-' :: r => (-1, r)
    | '+' :: r => (1, r)
    | r => (1, r)
  match s2 with
  | '0' :: x :: r =>
    if x = 'x' ∨ x = 'X' then
      let ds := r.takeWhile isHexDigitChar
      if ds = [] then none else some (sign * (hexDigitsToNat ds : Int))
    else
      let ds := s2.takeWhile Char.isDigit
      if ds = [] then none else some (sign * (digitsToNat ds : Int))
  | _ =>
    let ds := s2.takeWhile Char.isDigit
    if ds = [] then none else some (sign * (digitsToNat ds : Int))

/-- JavaScript `parseFloat(s)`: skip leading whitespace, read an optional
sign, integer digits, an optional fraction and an optional exponent;
`none` models `NaN`.  Modelled exactly over the rationals for finite
decimal literals; the literal `Infinity` and float rounding are not
modelled (no call site in this codebase depends on them). -/
def parseFloatJs (s : List Char) : Option Rat :=
  let s1 := s.dropWhile isJsWhitespace
  let (sign, s2) : Rat × List Char :=
    match s1 with
    | '-' :: r => (-1, r)
    | '+' :: r => (1, r)
    | r => (1, r)
  let ip := s2.takeWhile Char.isDigit
  let r1 := s2.dropWhile Char.isDigit
  let (fp, r2) : List Char × List Char :=
    match r1 with
    | '.' :: r => (r.takeWhile Char.isDigit, r.dropWhile Char.isDigit)
    | r => ([], r)
  if ip = [] ∧ fp = [] then none
  else
    let mantissa : Rat := (digitsToNat (ip ++ fp) : Rat) / ((10 : Rat) ^ fp.length)
    let expVal : Int :=
      match r2 with
      | e :: rest =>
        if e = 'e' ∨ e = 'E' then
          let (es, rest2) : Int × List Char :=
            match rest with
            | '-' :: r => (-1, r)
            | '+' :: r => (1, r)
            | r => (1, r)
          let ed := rest2.takeWhile Char.isDigit
          if ed = [] then 0 else es * (digitsToNat ed : Int)
        else 0
      | [] => 0
    some (sign * mantissa * (10 : Rat) ^ expVal)

/-- The UTF-8 bytes of a character. -/
def utf8Bytes (c : Char) : List Nat :=
  let n := c.toNat
  if n < 0x80 then [n]
  else if n < 0x800 then [0xC0 + n / 64, 0x80 + n % 64]
  else if n < 0x10000 then
    [0xE0 + n / 4096, 0x80 + (n / 64) % 64, 0x80 + n % 64]
  else
    [0xF0 + n / 262144, 0x80 + (n / 4096) % 64, 0x80 + (n / 64) % 64, 0x80 + n % 64]

/-- Hexadecimal digit character (uppercase) for a value below 16. -/
def hexDigitChar (n : Nat) : Char :=
  if n < 10 then Char.ofNat (48 + n) else Char.ofNat (55 + n)

/-- `%XX` escape of one byte. -/
def pctEncodeByte (b : Nat) : List Char :=
  ['%', hexDigitChar (b / 16), hexDigitChar (b % 16)]

/-- The characters `encodeURIComponent` leaves unescaped:
ASCII alphanumerics and `- _ . ! ~ * ' ( )`. -/
def isUriUnreserved (c : Char) : Bool :=
  c.isAlphanum || c = '-' || c = '_' || c = '.' || c = '!' || c = '~' ||
  c = '*' || c = '\'' || c = '(' || c = ')'

/-- JavaScript `encodeURIComponent`: percent-encode the UTF-8 bytes of
every character outside the unreserved set. -/
def encodeURIComponent (s : List Char) : List Char :=
  s.flatMap fun c =>
    if isUriUnreserved c then [c] else (utf8Bytes c).flatMap pctEncodeByte

/-- The characters the `application/x-www-form-urlencoded` serialiser
(used by `URLSearchParams.toString`) leaves unescaped:
ASCII alphanumerics and `* - . _`. -/
def isFormUnreserved (c : Char) : Bool :=
  c.isAlphanum || c = '*' || c = '-' || c = '.' || c = '_'

/-- Form-urlencode one string: space becomes `+`, unreserved characters
stay, everything else is percent-encoded per UTF-8 byte. -/
def formEncode (s : List Char) : List Char :=
  s.flatMap fun c =>
    if c = ' ' then ['+']
    else if isFormUnreserved c then [c]
    else (utf8Bytes c).flatMap pctEncodeByte

/-- `URLSearchParams.toString()`: `k=v` pairs joined with `&`. -/
def formUrlEncodeParams (ps : List (List Char × List Char)) : List Char :=
  List.intercalate ['&'] (ps.map fun kv => formEncode kv.1 ++ '=' :: formEncode kv.2)

/-- The parsed `{success, message?}` JSON envelope a mutating endpoint
returns.  `success` is the truthiness of the `success` field (an absent
field is falsy); `message` is `none` when the field is absent. -/
structure Envelope where
  success : Bool
  message : Option (List Char)
deriving DecidableEq, Repr

/-- Outcome a `fetch` continuation chain observes: either a parsed JSON
envelope, or the rejection path (network error or JSON parse failure)
that lands in `.catch`. -/
inductive FetchResult where
  | success (data : Envelope)
  | failure
deriving DecidableEq, Repr

/-- The request body a call site serialises. -/
inductive ReqBody where
  /-- `JSON.stringify({quantity: parseInt(...)})`; `none` models `NaN`. -/
  | quantity (q : Option Int)
  /-- `JSON.stringify({code: ...})`. -/
  | couponCode (code : List Char)
  /-- `JSON.stringify({amount: parseFloat(...)})`; `none` models `NaN`. -/
  | amount (a : Option Rat)
  /-- A `FormData` payload. -/
  | formData
deriving DecidableEq, Repr

/-- A `fetch` request: URL, method, header list (values are nullable,
matching the JavaScript expressions used to build them) and body. -/
structure Request where
  url : List Char
  method : List Char
  headers : List (List Char × Option (List Char))
  body : Option ReqBody
deriving DecidableEq, Repr

/-- Observable side effects of the scripts, in program order. -/
inductive Effect where
  | request (r : Request)
  | toast (text level : List Char)
  | reload
  | scheduleReload (ms : Nat)
  | navigate (url : List Char)
  | setSearch (query : List Char)
  | updateCartCount
  | consoleError
deriving DecidableEq, Repr

/-- The slice of browser state the embedded functions read:
`document.cookie`, the `value` of the element with a given id (`none`
when the element is absent), the answer of the native `confirm` dialog
and whether the bank-details form element exists. -/
structure Env where
  cookie : List Char
  elements : List Char → Option (List Char)
  confirmResult : Bool
  bankFormPresent : Bool

/-- Effects actually performed: an `Except.error` (exception before the
`fetch`) performs none. -/
def effectsOf (r : Except Unit (List Effect)) : List Effect :=
  match r with
  | .ok effs => effs
  | .error _ => []

/-- The network requests among a list of effects. -/
def requestEffects (effs : List Effect) : List Request :=
  effs.filterMap fun e =>
    match e with
    | .request req => some req
    | _ => none

/-- The network requests actually issued. -/
def requestsOf (r : Except Unit (List Effect)) : List Request :=
  requestEffects (effectsOf r)

/-- Is the effect a toast of any severity? -/
def isToast : Effect → Bool
  | .toast _ _ => true
  | _ => false

/-- Does the effect trigger a page reload (immediately or via a
timer)? -/
def isReloadEffect : Effect → Bool
  | .reload => true
  | .scheduleReload _ => true
  | _ => false

/-- `data.message || fallback`: the server message unless it is absent
or empty (both falsy). -/
def orDefault (m : Option (List Char)) (d : List Char) : List Char :=
  match m with
  | some v => if v = [] then d else v
  | none => d

/-- The name of the CSRF cookie. -/
def csrfCookieName : List Char := ("csrftoken").data

/-- The continuation chain of `addToCart`'s `fetch`. -/
def addToCartHandler : FetchResult → List Effect
  | .success data =>
    if data.success then
      [.toast ("Product added to cart!").data ("success").data, .updateCartCount]
    else
      [.toast (orDefault data.message ("Error adding to cart").data) ("danger").data]
  | .failure =>
    [.consoleError, .toast ("Error adding to cart").data ("danger").data]

/-- `addToCart(productId)` from `cart.js`: read the quantity input
(defaulting to the number `1` when the element is absent or its value is
empty, which `parseInt` then sees as `"1"`), build the POST request with
the CSRF header, and run the response continuation. -/
def addToCart (env : Env) (productId : List Char) (resp : FetchResult) :
    Except Unit (List Effect) :=
  let quantity : Option Int :=
    match env.elements (("quantity_").data ++ productId) with
    | some v => if v = [] then some 1 else parseIntJs v
    | none => some 1
  match getCookie env.cookie csrfCookieName with
  | .error e => .error e
  | .ok token =>
    .ok (.request
      { url := ("/orders/add-to-cart/").data ++ productId ++ ['/']
        method := ("POST").data
        headers := [(("Content-Type").data, some ("application/json").data),
                    (("X-CSRFToken").data, token)]
        body := some (.quantity quantity) } :: addToCartHandler resp)

/-- The continuation chain of `updateQuantity`'s `fetch`: reload on
success, nothing on `success:false`, console log on rejection. -/
def updateQuantityHandler : FetchResult → List Effect
  | .success data => if data.success then [.reload] else []
  | .failure => [.consoleError]

/-- `updateQuantity(itemId, quantity)` from `cart.js`: return
immediately when the quantity is below 1, otherwise POST the new
quantity with the CSRF header and run the response continuation. -/
def updateQuantity (env : Env) (itemId : List Char) (quantity : Int)
    (resp : FetchResult) : Except Unit (List Effect) :=
  if quantity < 1 then .ok []
  else
    match getCookie env.cookie csrfCookieName with
    | .error e => .error e
    | .ok token =>
      .ok (.request
        { url := ("/orders/update-cart/").data ++ itemId ++ ['/']
          method := ("POST").data
          headers := [(("Content-Type").data, some ("application/json").data),
                      (("X-CSRFToken").data, token)]
          body := some (.quantity (some quantity)) } :: updateQuantityHandler resp)

/-- The continuation chain of `removeFromCart`'s `fetch`: reload on
success, nothing on `success:false`, console log on rejection. -/
def removeFromCartHandler : FetchResult → List Effect
  | .success data => if data.success then [.reload] else []
  | .failure => [.consoleError]

/-- `removeFromCart(itemId)` from `cart.js`: behind a `confirm` gate,
POST the removal with the CSRF header and run the response
continuation. -/
def removeFromCart (env : Env) (itemId : List Char) (resp : FetchResult) :
    Except Unit (List Effect) :=
  if env.confirmResult then
    match getCookie env.cookie csrfCookieName with
    | .error e => .error e
    | .ok token =>
      .ok (.request
        { url := ("/orders/remove-from-cart/").data ++ itemId ++ ['/']
          method := ("POST").data
          headers := [(("X-CSRFToken").data, token)]
          body := none } :: removeFromCartHandler resp)
  else .ok []

/-- The continuation chain of `applyCoupon`'s `fetch`. -/
def applyCouponHandler : FetchResult → List Effect
  | .success data =>
    if data.success then
      [.toast ("Coupon applied!").data ("success").data, .scheduleReload 1500]
    else
      [.toast (orDefault data.message ("Invalid coupon").data) ("danger").data]
  | .failure =>
    [.consoleError, .toast ("Error applying coupon").data ("danger").data]

/-- `applyCoupon()` from `cart.js`: read the coupon input, warn when it
is falsy (absent element or empty value), otherwise POST it with the
CSRF header and run the response continuation. -/
def applyCoupon (env : Env) (resp : FetchResult) : Except Unit (List Effect) :=
  let code := env.elements (("coupon_code").data)
  match code with
  | none => .ok [.toast ("Please enter coupon code").data ("warning").data]
  | some c =>
    if c = [] then .ok [.toast ("Please enter coupon code").data ("warning").data]
    else
      match getCookie env.cookie csrfCookieName with
      | .error e => .error e
      | .ok token =>
        .ok (.request
          { url := ("/orders/apply-coupon/").data
            method := ("POST").data
            headers := [(("Content-Type").data, some ("application/json").data),
                        (("X-CSRFToken").data, token)]
            body := some (.couponCode c) } :: applyCouponHandler resp)

/-- The continuation chain of `requestWithdrawal`'s `fetch`. -/
def requestWithdrawalHandler : FetchResult → List Effect
  | .success data =>
    if data.success then
      [.toast ("Withdrawal request submitted!").data ("success").data, .scheduleReload 1500]
    else
      [.toast (orDefault data.message ("Error processing request").data) ("danger").data]
  | .failure =>
    [.consoleError, .toast ("Error processing request").data ("danger").data]

/-- The `fetch` part of `requestWithdrawal`, behind its `confirm` gate. -/
def requestWithdrawalFetch (env : Env) (amt : Option Rat) (resp : FetchResult) :
    Except Unit (List Effect) :=
  if env.confirmResult then
    match getCookie env.cookie csrfCookieName with
    | .error e => .error e
    | .ok token =>
      .ok (.request
        { url := ("/affiliate/request-withdrawal/").data
          method := ("POST").data
          headers := [(("Content-Type").data, some ("application/json").data),
                      (("X-CSRFToken").data, token)]
          body := some (.amount amt) } :: requestWithdrawalHandler resp)
  else .ok []

/-- `requestWithdrawal()` from `affiliate.js`: read the amount input,
warn when it is falsy or `parseFloat(amount) <= 0` (note `NaN <= 0` is
false, so a non-numeric value passes the guard), then — behind a
`confirm` gate — POST the parsed amount with the CSRF header and run
the response continuation. -/
def requestWithdrawal (env : Env) (resp : FetchResult) : Except Unit (List Effect) :=
  match env.elements (("withdrawalAmount").data) with
  | none => .ok [.toast ("Please enter valid amount").data ("warning").data]
  | some a =>
    if a = [] then .ok [.toast ("Please enter valid amount").data ("warning").data]
    else
      match parseFloatJs a with
      | some q =>
        if q ≤ 0 then .ok [.toast ("Please enter valid amount").data ("warning").data]
        else requestWithdrawalFetch env (some q) resp
      | none => requestWithdrawalFetch env none resp

/-- The continuation chain of `updateBankDetails`'s `fetch`. -/
def updateBankDetailsHandler : FetchResult → List Effect
  | .success data =>
    if data.success then [.toast ("Bank details updated!").data ("success").data]
    else [.toast (orDefault data.message ("Error updating details").data) ("danger").data]
  | .failure =>
    [.consoleError, .toast ("Error updating details").data ("danger").data]

/-- `updateBankDetails()` from `affiliate.js`: return when the form is
absent, otherwise POST its `FormData` with the CSRF header (and no
`Content-Type` header) and run the response continuation. -/
def updateBankDetails (env : Env) (resp : FetchResult) : Except Unit (List Effect) :=
  if env.bankFormPresent then
    match getCookie env.cookie csrfCookieName with
    | .error e => .error e
    | .ok token =>
      .ok (.request
        { url := ("/affiliate/update-bank-details/").data
          method := ("POST").data
          headers := [(("X-CSRFToken").data, token)]
          body := some .formData } :: updateBankDetailsHandler resp)
  else .ok []

/-- Truthiness of an optional input value: `undefined` and `""` are
falsy. -/
def truthyStr : Option (List Char) → Bool
  | some v => !v.isEmpty
  | none => false

/-- The `URLSearchParams` pairs `applyFilters` appends: each of the four
controls contributes its key and value exactly when its value is
truthy, in source order. -/
def applyFiltersParams (category minPrice maxPrice sort : Option (List Char)) :
    List (List Char × List Char) :=
  (if truthyStr category then [(("category").data, category.getD [])] else []) ++
  (if truthyStr minPrice then [(("min_price").data, minPrice.getD [])] else []) ++
  (if truthyStr maxPrice then [(("max_price").data, maxPrice.getD [])] else []) ++
  (if truthyStr sort then [(("sort").data, sort.getD [])] else [])

/-- `applyFilters()` from `filter.js`: read the four filter controls,
append the truthy ones to a `URLSearchParams` and assign its
serialisation to `window.location.search`. -/
def applyFilters (env : Env) : List Effect :=
  [.setSearch (formUrlEncodeParams (applyFiltersParams
    (env.elements (("categoryFilter").data))
    (env.elements (("minPrice").data))
    (env.elements (("maxPrice").data))
    (env.elements (("sortFilter").data))))]

/-- `searchProducts(query)` from `search.js`: warn on a falsy or
whitespace-only query, otherwise navigate to the search URL with the
query percent-encoded. -/
def searchProducts (query : List Char) : List Effect :=
  if query = [] ∨ jsTrimL query = [] then
    [.toast ("Please enter search term").data ("warning").data]
  else
    [.navigate (("/products/search/?q=").data ++ encodeURIComponent query)]

/-- Is `c` a regex word character (`\w`)? -/
def isWordChar (c : Char) : Bool := c.isAlphanum || c = '_'

/-- `\B` between two adjacent characters: both are word characters or
neither is. -/
def noWordBoundary (a b : Char) : Bool :=
  (isWordChar a && isWordChar b) || (!isWordChar a && !isWordChar b)

/-- The lookahead `(?=(\d{3})+(?!\d))` at a position whose suffix is
`cs`: it succeeds exactly when the leading digit run of `cs` has
positive length divisible by 3. -/
def groupLookahead (cs : List Char) : Bool :=
  let d := (cs.takeWhile Char.isDigit).length
  decide (0 < d) && decide (d % 3 = 0)

/-- Tail of the global replace of `/\B(?=(\d{3})+(?!\d))/` with `,`:
`prev` is the character just before the remaining suffix. -/
def groupCommasAux (prev : Char) : List Char → List Char
  | [] => []
  | b :: rest =>
    (if noWordBoundary prev b && groupLookahead (b :: rest) then [','] else []) ++
    b :: groupCommasAux b rest

/-- `.replace(/\B(?=(\d{3})+(?!\d))/g, ',')`: insert a comma at every
interior non-boundary position whose suffix starts with a digit run of
positive length divisible by 3.  (The zero-width pattern cannot match at
the string's ends: `\B` fails before a leading digit and the lookahead
needs at least three digits.) -/
def groupCommas : List Char → List Char
  | [] => []
  | a :: rest => a :: groupCommasAux a rest

/-- Two-decimal rendering of an amount of `cents` hundredths, the result
of `toFixed(2)`.  Amounts are modelled as exact hundredths: on such
values (including the spec's `1234567.5`) `toFixed(2)` rounds nothing
and this rendering is exact. -/
def toFixed2Cents (cents : Int) : List Char :=
  let n := cents.natAbs
  (if cents < 0 then ['-'] else []) ++
  Nat.toDigits 10 (n / 100) ++
  '.' :: (if n % 100 < 10 then ['0'] else []) ++ Nat.toDigits 10 (n % 100)

/-- `formatCurrency(amount)` from `main.js`: `'₹' +
parseFloat(amount).toFixed(2).replace(/\B(?=(\d{3})+(?!\d))/g, ',')`,
with the numeric argument modelled as an exact count of hundredths
(`parseFloat` on a number is the identity). -/
def formatCurrency (cents : Int) : List Char :=
  '₹' :: groupCommas (toFixed2Cents cents)

/-! ### Helper lemmas about the string utilities -/

theorem startsWith_append (n t : List Char) : startsWith (n ++ t) n = true := by
  induction n with
  | nil => cases t <;> rfl
  | cons c ns ih => simp [startsWith, ih]

theorem occursB_nil_needle (l : List Char) : occursB [] l = true := by
  cases l with
  | nil => rfl
  | cons c rest => simp [occursB, startsWith]

theorem occursB_append_left (n s l : List Char) (h : occursB n l = true) :
    occursB n (s ++ l) = true := by
  induction s with
  | nil => simpa using h
  | cons c s' ih => simp [occursB, ih]

theorem occursB_self_append (n t : List Char) : occursB n (n ++ t) = true := by
  cases n with
  | nil => exact occursB_nil_needle t
  | cons c ns =>
    have h1 : startsWith (c :: (ns ++ t)) (c :: ns) = true := by
      simpa using startsWith_append (c :: ns) t
    simp [occursB, h1]

theorem occursB_of_decomp (n s t hay : List Char) (h : s ++ n ++ t = hay) :
    occursB n hay = true := by
  subst h
  rw [List.append_assoc]
  exact occursB_append_left n s (n ++ t) (occursB_self_append n t)

theorem take_decomp {l x : List Char} {k : Nat} (h : l.take k = x) :
    x ++ l.drop k = l := by
  rw [← h, List.take_append_drop]

theorem dropWhile_decomp (p : Char → Bool) (l : List Char) :
    ∃ s, s ++ l.dropWhile p = l := by
  induction l with
  | nil => exact ⟨[], rfl⟩
  | cons c rest ih =>
    by_cases h : p c
    · obtain ⟨s, hs⟩ := ih
      exact ⟨c :: s, by simp [List.dropWhile, h, hs]⟩
    · exact ⟨[], by simp [List.dropWhile, h]⟩

theorem jsTrimL_decomp (l : List Char) : ∃ s t, s ++ jsTrimL l ++ t = l := by
  obtain ⟨s₁, hs₁⟩ := dropWhile_decomp isJsWhitespace l
  obtain ⟨s₂, hs₂⟩ :=
    dropWhile_decomp isJsWhitespace (l.dropWhile isJsWhitespace).reverse
  refine ⟨s₁, s₂.reverse, ?_⟩
  have hmid : jsTrimL l ++ s₂.reverse = l.dropWhile isJsWhitespace := by
    have := congrArg List.reverse hs₂
    simpa [jsTrimL, List.reverse_append] using this
  rw [List.append_assoc, hmid, hs₁]

theorem splitSemi_ne_nil (cs : List Char) : splitSemi cs ≠ [] := by
  cases cs with
  | nil => simp [splitSemi]
  | cons c rest =>
    by_cases h : c = ';'
    · simp [splitSemi, h]
    · simp only [splitSemi, if_neg h]
      cases hs : splitSemi rest <;> simp

theorem splitSemi_head_decomp (cs s : List Char) (ss : List (List Char))
    (h : splitSemi cs = s :: ss) : ∃ t, s ++ t = cs := by
  induction cs generalizing s ss with
  | nil =>
    simp [splitSemi] at h
    exact ⟨[], by simp [h.1]⟩
  | cons c rest ih =>
    by_cases hc : c = ';'
    · simp [splitSemi, hc] at h
      exact ⟨c :: rest, by simp [h.1]⟩
    · simp only [splitSemi, if_neg hc] at h
      cases hs : splitSemi rest with
      | nil => exact absurd hs (splitSemi_ne_nil rest)
      | cons s' ss' =>
        rw [hs] at h
        obtain ⟨t, ht⟩ := ih s' ss' hs
        cases h
        exact ⟨t, by simp [ht]⟩

theorem splitSemi_mem_decomp (cs part : List Char) (h : part ∈ splitSemi cs) :
    ∃ s t, s ++ part ++ t = cs := by
  induction cs generalizing part with
  | nil =>
    simp [splitSemi] at h
    exact ⟨[], [], by simp [h]⟩
  | cons c rest ih =>
    by_cases hc : c = ';'
    · simp only [splitSemi, if_pos hc] at h
      rcases List.mem_cons.mp h with h1 | h2
      · exact ⟨[], c :: rest, by simp [h1]⟩
      · obtain ⟨s, t, hst⟩ := ih part h2
        exact ⟨c :: s, t, by simp [← hst]⟩
    · simp only [splitSemi, if_neg hc] at h
      cases hs : splitSemi rest with
      | nil => exact absurd hs (splitSemi_ne_nil rest)
      | cons s' ss' =>
        rw [hs] at h
        rcases List.mem_cons.mp h with h1 | h2
        · obtain ⟨t, ht⟩ := splitSemi_head_decomp rest s' ss' hs
          exact ⟨[], t, by simp [h1, ht]⟩
        · obtain ⟨s, t, hst⟩ := ih part (hs ▸ List.mem_cons_of_mem s' h2)
          exact ⟨c :: s, t, by simp [← hst]⟩

theorem getCookieLoop_none (name : List Char) (parts : List (List Char))
    (h : ∀ part ∈ parts, (jsTrimL part).take (name.length + 1) ≠ name ++ ['=']) :
    getCookieLoop name parts = Except.ok none := by
  induction parts with
  | nil => rfl
  | cons part rest ih =>
    have hp := h part (List.mem_cons_self part rest)
    simp only [getCookieLoop, if_neg hp]
    exact ih fun q hq => h q (List.mem_cons_of_mem part hq)

theorem getCookie_none_of_not_occurs (cookie name : List Char)
    (h : occursB name cookie = false) : getCookie cookie name = Except.ok none := by
  unfold getCookie
  by_cases hc : cookie = []
  · simp [hc]
  · rw [if_neg hc]
    refine getCookieLoop_none name (splitSemi cookie) fun part hmem htake => ?_
    obtain ⟨s₂, t₂, hpart⟩ := splitSemi_mem_decomp cookie part hmem
    obtain ⟨s₁, t₁, htrim⟩ := jsTrimL_decomp part
    have hmid := take_decomp htake
    have e1 : name ++ '=' :: (jsTrimL part).drop (name.length + 1) = jsTrimL part := by
      simpa using hmid
    have key : (s₂ ++ s₁) ++ name ++
        (('=' :: (jsTrimL part).drop (name.length + 1)) ++ t₁ ++ t₂) = cookie := by
      calc (s₂ ++ s₁) ++ name ++
            (('=' :: (jsTrimL part).drop (name.length + 1)) ++ t₁ ++ t₂)
          = s₂ ++ (s₁ ++ (name ++ '=' :: (jsTrimL part).drop (name.length + 1)) ++ t₁) ++ t₂ := by
            simp
        _ = s₂ ++ (s₁ ++ jsTrimL part ++ t₁) ++ t₂ := by rw [e1]
        _ = s₂ ++ part ++ t₂ := by rw [htrim]
        _ = cookie := hpart
    have htrue := occursB_of_decomp name (s₂ ++ s₁)
      (('=' :: (jsTrimL part).drop (name.length + 1)) ++ t₁ ++ t₂) cookie key
    rw [h] at htrue
    exact Bool.noConfusion htrue

/-! ### Helper lemmas about blank detection and filter parameters -/

theorem allWs_iff_trim (q : List Char) :
    q.all isJsWhitespace = true ↔ jsTrimL q = [] := by
  constructor
  · intro h
    have h1 : q.dropWhile isJsWhitespace = [] :=
      List.dropWhile_eq_nil_iff.mpr (by simpa [List.all_eq_true] using h)
    simp [jsTrimL, h1]
  · intro h
    have h2 : (q.dropWhile isJsWhitespace).reverse.dropWhile isJsWhitespace = [] := by
      have := congrArg List.reverse h
      simpa [jsTrimL] using this
    have h4 : ∀ c ∈ q.dropWhile isJsWhitespace, isJsWhitespace c := by
      intro c hc
      exact List.dropWhile_eq_nil_iff.mp h2 c (List.mem_reverse.mpr hc)
    rw [List.all_eq_true]
    intro c hc
    rcases List.mem_append.mp
        ((List.takeWhile_append_dropWhile (p := isJsWhitespace) (l := q)) ▸ hc) with h5 | h5
    · exact List.mem_takeWhile_imp h5
    · exact h4 c h5

theorem mem_filterSegment (key : List Char) (o : Option (List Char)) (k v : List Char) :
    ((k, v) ∈ (if truthyStr o then [(key, o.getD [])] else []) ↔
      (k = key ∧ o = some v ∧ v ≠ [])) := by
  cases o with
  | none => simp [truthyStr]
  | some w =>
    cases w with
    | nil => simp [truthyStr]
    | cons c ws =>
      simp only [truthyStr, List.isEmpty_cons, Bool.not_false, if_pos,
        List.mem_singleton, Prod.mk.injEq, Option.some.injEq]
      constructor
      · rintro ⟨rfl, rfl⟩
        exact ⟨rfl, rfl, by simp⟩
      · rintro ⟨rfl, rfl, _⟩
        exact ⟨rfl, rfl⟩

/-! ### Concrete witness data -/

/-- A concrete browser state: a CSRF cookie, a filled coupon input, a
filled withdrawal amount, a selected category, confirmation dialogs
answered yes, and the bank-details form present. -/
def env0 : Env where
  cookie := ("csrftoken=tok123").data
  elements := fun i =>
    if i = ("coupon_code").data then some (("SAVE10").data)
    else if i = ("withdrawalAmount").data then some (("500").data)
    else if i = ("categoryFilter").data then some (("soaps").data)
    else none
  confirmResult := true
  bankFormPresent := true

/-- The request `addToCart('5')` issues under `env0`. -/
def addReq05 : Request where
  url := ("/orders/add-to-cart/5/").data
  method := ("POST").data
  headers := [(("Content-Type").data, some (("application/json").data)),
              (("X-CSRFToken").data, some (("tok123").data))]
  body := some (.quantity (some 1))

/-- The `POST` method and CSRF header obligation of claim C1: the
request uses method POST and carries an `X-CSRFToken` header whose value
is exactly what `getCookie('csrftoken')` returned. -/
def csrfOk (env : Env) (r : Request) : Prop :=
  r.method = ("POST").data ∧
  ∃ t, getCookie env.cookie csrfCookieName = Except.ok t ∧
    ((("X-CSRFToken").data), t) ∈ r.headers

/-! ### Response continuations issue no further requests -/

theorem requestEffects_cons_request (req : Request) (effs : List Effect) :
    requestEffects (Effect.request req :: effs) = req :: requestEffects effs := by
  simp [requestEffects]

theorem requestEffects_addToCartHandler (resp : FetchResult) :
    requestEffects (addToCartHandler resp) = [] := by
  cases resp with
  | success data => cases data with
    | mk s m => cases s <;> simp [addToCartHandler, requestEffects]
  | failure => simp [addToCartHandler, requestEffects]

theorem requestEffects_updateQuantityHandler (resp : FetchResult) :
    requestEffects (updateQuantityHandler resp) = [] := by
  cases resp with
  | success data => cases data with
    | mk s m => cases s <;> simp [updateQuantityHandler, requestEffects]
  | failure => simp [updateQuantityHandler, requestEffects]

theorem requestEffects_removeFromCartHandler (resp : FetchResult) :
    requestEffects (removeFromCartHandler resp) = [] := by
  cases resp with
  | success data => cases data with
    | mk s m => cases s <;> simp [removeFromCartHandler, requestEffects]
  | failure => simp [removeFromCartHandler, requestEffects]

theorem requestEffects_applyCouponHandler (resp : FetchResult) :
    requestEffects (applyCouponHandler resp) = [] := by
  cases resp with
  | success data => cases data with
    | mk s m => cases s <;> simp [applyCouponHandler, requestEffects]
  | failure => simp [applyCouponHandler, requestEffects]

theorem requestEffects_requestWithdrawalHandler (resp : FetchResult) :
    requestEffects (requestWithdrawalHandler resp) = [] := by
  cases resp with
  | success data => cases data with
    | mk s m => cases s <;> simp [requestWithdrawalHandler, requestEffects]
  | failure => simp [requestWithdrawalHandler, requestEffects]

theorem requestEffects_updateBankDetailsHandler (resp : FetchResult) :
    requestEffects (updateBankDetailsHandler resp) = [] := by
  cases resp with
  | success data => cases data with
    | mk s m => cases s <;> simp [updateBankDetailsHandler, requestEffects]
  | failure => simp [updateBankDetailsHandler, requestEffects]

/-! ### Every issued request is a CSRF-protected POST -/

theorem addToCart_csrf (env : Env) (productId : List Char) (resp : FetchResult) :
    ∀ r ∈ requestsOf (addToCart env productId resp), csrfOk env r := by
  intro r hr
  cases hg : getCookie env.cookie csrfCookieName with
  | error e =>
    simp [addToCart, hg, requestsOf, requestEffects, effectsOf] at hr
  | ok token =>
    simp [addToCart, hg, requestsOf, requestEffects, effectsOf,
      requestEffects_addToCartHandler resp] at hr
    rcases hr with rfl | ⟨a, ha, hm⟩
    · exact ⟨rfl, token, hg, by simp⟩
    · have hmem : r ∈ requestEffects (addToCartHandler resp) := by
        simp only [requestEffects]
        exact List.mem_filterMap.mpr ⟨a, ha, hm⟩
      simp [requestEffects_addToCartHandler resp] at hmem

theorem updateQuantity_csrf (env : Env) (itemId : List Char) (q : Int)
    (resp : FetchResult) :
    ∀ r ∈ requestsOf (updateQuantity env itemId q resp), csrfOk env r := by
  intro r hr
  by_cases hq : q < 1
  · simp [updateQuantity, hq, requestsOf, requestEffects, effectsOf] at hr
  · cases hg : getCookie env.cookie csrfCookieName with
    | error e =>
      simp [updateQuantity, hq, hg, requestsOf, requestEffects, effectsOf] at hr
    | ok token =>
      simp [updateQuantity, hq, hg, requestsOf, requestEffects, effectsOf,
        requestEffects_updateQuantityHandler resp] at hr
      rcases hr with rfl | ⟨a, ha, hm⟩
      · exact ⟨rfl, token, hg, by simp⟩
      · have hmem : r ∈ requestEffects (updateQuantityHandler resp) := by
          simp only [requestEffects]
          exact List.mem_filterMap.mpr ⟨a, ha, hm⟩
        simp [requestEffects_updateQuantityHandler resp] at hmem

theorem removeFromCart_csrf (env : Env) (itemId : List Char) (resp : FetchResult) :
    ∀ r ∈ requestsOf (removeFromCart env itemId resp), csrfOk env r := by
  intro r hr
  by_cases hc : env.confirmResult
  · cases hg : getCookie env.cookie csrfCookieName with
    | error e =>
      simp [removeFromCart, hc, hg, requestsOf, requestEffects, effectsOf] at hr
    | ok token =>
      simp [removeFromCart, hc, hg, requestsOf, requestEffects, effectsOf,
        requestEffects_removeFromCartHandler resp] at hr
      rcases hr with rfl | ⟨a, ha, hm⟩
      · exact ⟨rfl, token, hg, by simp⟩
      · have hmem : r ∈ requestEffects (removeFromCartHandler resp) := by
          simp only [requestEffects]
          exact List.mem_filterMap.mpr ⟨a, ha, hm⟩
        simp [requestEffects_removeFromCartHandler resp] at hmem
  · simp [removeFromCart, hc, requestsOf, requestEffects, effectsOf] at hr

theorem applyCoupon_csrf (env : Env) (resp : FetchResult) :
    ∀ r ∈ requestsOf (applyCoupon env resp), csrfOk env r := by
  intro r hr
  cases he : env.elements (("coupon_code").data) with
  | none => simp [applyCoupon, he, requestsOf, requestEffects, effectsOf] at hr
  | some c =>
    by_cases hce : c = []
    · simp [applyCoupon, he, hce, requestsOf, requestEffects, effectsOf] at hr
    · cases hg : getCookie env.cookie csrfCookieName with
      | error e =>
        simp [applyCoupon, he, hce, hg, requestsOf, requestEffects, effectsOf] at hr
      | ok token =>
        simp [applyCoupon, he, hce, hg, requestsOf, requestEffects, effectsOf,
          requestEffects_applyCouponHandler resp] at hr
        rcases hr with rfl | ⟨a, ha, hm⟩
        · exact ⟨rfl, token, hg, by simp⟩
        · have hmem : r ∈ requestEffects (applyCouponHandler resp) := by
            simp only [requestEffects]
            exact List.mem_filterMap.mpr ⟨a, ha, hm⟩
          simp [requestEffects_applyCouponHandler resp] at hmem

theorem requestWithdrawalFetch_csrf (env : Env) (amt : Option Rat) (resp : FetchResult) :
    ∀ r ∈ requestsOf (requestWithdrawalFetch env amt resp), csrfOk env r := by
  intro r hr
  by_cases hc : env.confirmResult
  · cases hg : getCookie env.cookie csrfCookieName with
    | error e =>
      simp [requestWithdrawalFetch, hc, hg, requestsOf, requestEffects, effectsOf] at hr
    | ok token =>
      simp [requestWithdrawalFetch, hc, hg, requestsOf, requestEffects, effectsOf,
        requestEffects_requestWithdrawalHandler resp] at hr
      rcases hr with rfl | ⟨a, ha, hm⟩
      · exact ⟨rfl, token, hg, by simp⟩
      · have hmem : r ∈ requestEffects (requestWithdrawalHandler resp) := by
          simp only [requestEffects]
          exact List.mem_filterMap.mpr ⟨a, ha, hm⟩
        simp [requestEffects_requestWithdrawalHandler resp] at hmem
  · simp [requestWithdrawalFetch, hc, requestsOf, requestEffects, effectsOf] at hr

theorem requestWithdrawal_csrf (env : Env) (resp : FetchResult) :
    ∀ r ∈ requestsOf (requestWithdrawal env resp), csrfOk env r := by
  intro r hr
  cases he : env.elements (("withdrawalAmount").data) with
  | none => simp [requestWithdrawal, he, requestsOf, requestEffects, effectsOf] at hr
  | some a =>
    by_cases hae : a = []
    · simp [requestWithdrawal, he, hae, requestsOf, requestEffects, effectsOf] at hr
    · cases hp : parseFloatJs a with
      | none =>
        have hr2 : r ∈ requestsOf (requestWithdrawalFetch env none resp) := by
          simpa [requestWithdrawal, he, hae, hp] using hr
        exact requestWithdrawalFetch_csrf env none resp r hr2
      | some q =>
        by_cases hq : q ≤ 0
        · simp [requestWithdrawal, he, hae, hp, hq, requestsOf, requestEffects,
            effectsOf] at hr
        · have hr2 : r ∈ requestsOf (requestWithdrawalFetch env (some q) resp) := by
            simpa [requestWithdrawal, he, hae, hp, hq] using hr
          exact requestWithdrawalFetch_csrf env (some q) resp r hr2

theorem updateBankDetails_csrf (env : Env) (resp : FetchResult) :
    ∀ r ∈ requestsOf (updateBankDetails env resp), csrfOk env r := by
  intro r hr
  by_cases hb : env.bankFormPresent
  · cases hg : getCookie env.cookie csrfCookieName with
    | error e =>
      simp [updateBankDetails, hb, hg, requestsOf, requestEffects, effectsOf] at hr
    | ok token =>
      simp [updateBankDetails, hb, hg, requestsOf, requestEffects, effectsOf,
        requestEffects_updateBankDetailsHandler resp] at hr
      rcases hr with rfl | ⟨a, ha, hm⟩
      · exact ⟨rfl, token, hg, by simp⟩
      · have hmem : r ∈ requestEffects (updateBankDetailsHandler resp) := by
          simp only [requestEffects]
          exact List.mem_filterMap.mpr ⟨a, ha, hm⟩
        simp [requestEffects_updateBankDetailsHandler resp] at hmem
  · simp [updateBankDetails, hb, requestsOf, requestEffects, effectsOf] at hr

/-! ### Claim theorems -/

/-- C1: Every mutating request issued by the program (add-to-cart,
update cart quantity, remove from cart, apply coupon, affiliate
withdrawal, bank details update) is a POST whose headers include
`X-CSRFToken` whose value is the result of `getCookie('csrftoken')`. -/
theorem mutating_requests_are_csrf_posts
    (env : Env) (productId itemId removeId : List Char) (q : Int) (resp : FetchResult) :
    (∀ r ∈ requestsOf (addToCart env productId resp), csrfOk env r) ∧
    (∀ r ∈ requestsOf (updateQuantity env itemId q resp), csrfOk env r) ∧
    (∀ r ∈ requestsOf (removeFromCart env removeId resp), csrfOk env r) ∧
    (∀ r ∈ requestsOf (applyCoupon env resp), csrfOk env r) ∧
    (∀ r ∈ requestsOf (requestWithdrawal env resp), csrfOk env r) ∧
    (∀ r ∈ requestsOf (updateBankDetails env resp), csrfOk env r) :=
  ⟨addToCart_csrf env productId resp, updateQuantity_csrf env itemId q resp,
   removeFromCart_csrf env removeId resp, applyCoupon_csrf env resp,
   requestWithdrawal_csrf env resp, updateBankDetails_csrf env resp⟩

/-- Witness for C1 at a concrete browser state: `addToCart('5')` under
`env0` issues `addReq05`, a POST carrying the CSRF token. -/
theorem mutating_requests_are_csrf_posts_witness : csrfOk env0 addReq05 :=
  (mutating_requests_are_csrf_posts env0 (("5").data) (("7").data) (("9").data) 2
    (FetchResult.success ⟨true, none⟩)).1 addReq05 (by decide)

/-- C3: for every combination of the four filter controls,
`applyFilters` rewrites the current URL's search string, and the
serialised parameter list contains exactly the parameters whose control
value is non-empty — keys `category`, `min_price`, `max_price`, `sort`,
each mapped to its control's value — and no others. -/
theorem applyFilters_exact_params :
    (∀ env : Env, applyFilters env = [Effect.setSearch (formUrlEncodeParams
      (applyFiltersParams (env.elements (("categoryFilter").data))
        (env.elements (("minPrice").data))
        (env.elements (("maxPrice").data))
        (env.elements (("sortFilter").data))))]) ∧
    ∀ (category minPrice maxPrice sortV : Option (List Char)) (k v : List Char),
      ((k, v) ∈ applyFiltersParams category minPrice maxPrice sortV ↔
        ((k = ("category").data ∧ category = some v ∧ v ≠ []) ∨
         (k = ("min_price").data ∧ minPrice = some v ∧ v ≠ []) ∨
         (k = ("max_price").data ∧ maxPrice = some v ∧ v ≠ []) ∨
         (k = ("sort").data ∧ sortV = some v ∧ v ≠ []))) := by
  refine ⟨fun env => rfl, ?_⟩
  intro c mn mx s k v
  simp only [applyFiltersParams, List.mem_append, mem_filterSegment]
  tauto

/-- Witness for C3: with only a category selected, the parameter list
contains the `category` pair. -/
theorem applyFilters_exact_params_witness :
    ((("category").data, ("soaps").data) ∈
      applyFiltersParams (some (("soaps").data)) none none none) :=
  (applyFilters_exact_params.2 (some (("soaps").data)) none none none
    (("category").data) (("soaps").data)).mpr (Or.inl ⟨rfl, rfl, by decide⟩)

/-- C4: `searchProducts` on an empty or whitespace-only query performs
no navigation and shows the warning toast; on any other query it
navigates to `/products/search/?q=` followed by the percent-encoded
query. -/
theorem searchProducts_blank_guard (q : List Char) :
    (q.all isJsWhitespace = true →
      searchProducts q =
        [Effect.toast (("Please enter search term").data) (("warning").data)]) ∧
    (q.all isJsWhitespace = false →
      searchProducts q =
        [Effect.navigate ((("/products/search/?q=").data) ++ encodeURIComponent q)]) := by
  constructor
  · intro h
    have ht : jsTrimL q = [] := (allWs_iff_trim q).mp h
    simp [searchProducts, ht]
  · intro h
    have h1 : ¬(q = [] ∨ jsTrimL q = []) := by
      rintro (rfl | ht)
      · simp at h
      · have := (allWs_iff_trim q).mpr ht
        rw [h] at this
        exact Bool.noConfusion this
    simp [searchProducts, h1]

/-- Witness for C4: a whitespace-only query warns, a non-blank query
navigates. -/
theorem searchProducts_blank_guard_witness :
    searchProducts ((" ").data) =
      [Effect.toast (("Please enter search term").data) (("warning").data)] ∧
    searchProducts (("gel").data) =
      [Effect.navigate ((("/products/search/?q=").data) ++
        encodeURIComponent (("gel").data))] :=
  ⟨(searchProducts_blank_guard ((" ").data)).1 (by decide),
   (searchProducts_blank_guard (("gel").data)).2 (by decide)⟩

/-- C5: `updateQuantity` with a quantity of 0 or below returns without
issuing any network request. -/
theorem updateQuantity_nonpositive_no_request
    (env : Env) (itemId : List Char) (q : Int) (resp : FetchResult) (hq : q ≤ 0) :
    requestsOf (updateQuantity env itemId q resp) = [] := by
  have h1 : q < 1 := by omega
  simp [updateQuantity, h1, requestsOf, effectsOf, requestEffects]

/-- Witness for C5 at quantity 0. -/
theorem updateQuantity_nonpositive_no_request_witness :
    requestsOf (updateQuantity env0 (("7").data) 0 (FetchResult.success ⟨true, none⟩)) = [] :=
  updateQuantity_nonpositive_no_request env0 (("7").data) 0
    (FetchResult.success ⟨true, none⟩) (by decide)

/-- C6: on the cookie string `"a=1; csrftoken=XYZ; b=2"`, `getCookie`
returns `"XYZ"` for name `csrftoken`; and for every cookie string in
which a given name does not occur, `getCookie` returns `null` for that
name. -/
theorem getCookie_lookup_spec :
    getCookie (("a=1; csrftoken=XYZ; b=2").data) (("csrftoken").data) =
      Except.ok (some (("XYZ").data)) ∧
    ∀ cookie name : List Char, occursB name cookie = false →
      getCookie cookie name = Except.ok none :=
  ⟨by decide, fun cookie name h => getCookie_none_of_not_occurs cookie name h⟩

/-- Witness for C6: `csrftoken` does not occur in `"a=1; b=2"`, so the
lookup returns `null`. -/
theorem getCookie_lookup_spec_witness :
    getCookie (("a=1; b=2").data) (("csrftoken").data) = Except.ok none :=
  getCookie_lookup_spec.2 (("a=1; b=2").data) (("csrftoken").data) (by decide)

/-- C7: `formatCurrency(1234567.5)` — the amount represented exactly as
123456750 hundredths — returns `"₹1,234,567.50"`: two fixed decimals,
comma thousands grouping, currency glyph prefix. -/
theorem formatCurrency_grouping_example :
    formatCurrency 123456750 = ("₹1,234,567.50").data := by decide

/-- Helper for the amended C2: `requestWithdrawal`'s fetch stage shows
the danger toast on `success:false` whenever its request went out. -/
theorem requestWithdrawalFetch_failure_toast (env : Env) (amt : Option Rat)
    (m : Option (List Char))
    (hne : requestsOf (requestWithdrawalFetch env amt
      (FetchResult.success ⟨false, m⟩)) ≠ []) :
    Effect.toast (orDefault m (("Error processing request").data)) (("danger").data) ∈
      effectsOf (requestWithdrawalFetch env amt (FetchResult.success ⟨false, m⟩)) := by
  by_cases hc : env.confirmResult
  · cases hg : getCookie env.cookie csrfCookieName with
    | error e =>
      exfalso; apply hne
      simp [requestWithdrawalFetch, hc, hg, requestsOf, effectsOf, requestEffects]
    | ok token =>
      simp [requestWithdrawalFetch, hc, hg, effectsOf, requestWithdrawalHandler]
  · exfalso; apply hne
    simp [requestWithdrawalFetch, hc, requestsOf, effectsOf, requestEffects]

/-- C2 counterexample: under `env0` (request issued, `confirm` answered
yes), a `success:false` response with a server-supplied message makes
`updateQuantity` show no toast at all — its failure branch is empty —
contradicting the claim that every mutating operation shows a danger
toast on `success:false`. -/
theorem updateQuantity_failure_shows_no_toast :
    (effectsOf (updateQuantity env0 (("7").data) 2
      (FetchResult.success ⟨false, some (("Out of stock").data)⟩))).all
      (fun e => !(isToast e)) = true := by decide

/-- C2 (amended): when the response envelope of the issued request has
`success:false`, the operations `addToCart`, `applyCoupon`,
`requestWithdrawal` and `updateBankDetails` show a danger toast whose
text is the server-supplied message when present (and non-empty) and a
generic fallback otherwise; `updateQuantity` and `removeFromCart`,
however, show no toast at all on such a response. -/
theorem success_false_toast_behaviour
    (env : Env) (productId itemId removeId : List Char) (q : Int)
    (m : Option (List Char)) :
    (requestsOf (addToCart env productId (FetchResult.success ⟨false, m⟩)) ≠ [] →
      Effect.toast (orDefault m (("Error adding to cart").data)) (("danger").data) ∈
        effectsOf (addToCart env productId (FetchResult.success ⟨false, m⟩))) ∧
    (requestsOf (applyCoupon env (FetchResult.success ⟨false, m⟩)) ≠ [] →
      Effect.toast (orDefault m (("Invalid coupon").data)) (("danger").data) ∈
        effectsOf (applyCoupon env (FetchResult.success ⟨false, m⟩))) ∧
    (requestsOf (requestWithdrawal env (FetchResult.success ⟨false, m⟩)) ≠ [] →
      Effect.toast (orDefault m (("Error processing request").data)) (("danger").data) ∈
        effectsOf (requestWithdrawal env (FetchResult.success ⟨false, m⟩))) ∧
    (requestsOf (updateBankDetails env (FetchResult.success ⟨false, m⟩)) ≠ [] →
      Effect.toast (orDefault m (("Error updating details").data)) (("danger").data) ∈
        effectsOf (updateBankDetails env (FetchResult.success ⟨false, m⟩))) ∧
    ((effectsOf (updateQuantity env itemId q (FetchResult.success ⟨false, m⟩))).all
      (fun e => !(isToast e)) = true) ∧
    ((effectsOf (removeFromCart env removeId (FetchResult.success ⟨false, m⟩))).all
      (fun e => !(isToast e)) = true) := by
  refine ⟨?_, ?_, ?_, ?_, ?_, ?_⟩
  · intro hne
    cases hg : getCookie env.cookie csrfCookieName with
    | error e =>
      exfalso; apply hne
      simp [addToCart, hg, requestsOf, effectsOf, requestEffects]
    | ok token =>
      simp [addToCart, hg, effectsOf, addToCartHandler]
  · intro hne
    cases he : env.elements (("coupon_code").data) with
    | none =>
      exfalso; apply hne
      simp [applyCoupon, he, requestsOf, effectsOf, requestEffects]
    | some c =>
      by_cases hce : c = []
      · exfalso; apply hne
        simp [applyCoupon, he, hce, requestsOf, effectsOf, requestEffects]
      · cases hg : getCookie env.cookie csrfCookieName with
        | error e =>
          exfalso; apply hne
          simp [applyCoupon, he, hce, hg, requestsOf, effectsOf, requestEffects]
        | ok token =>
          simp [applyCoupon, he, hce, hg, effectsOf, applyCouponHandler]
  · intro hne
    cases he : env.elements (("withdrawalAmount").data) with
    | none =>
      exfalso; apply hne
      simp [requestWithdrawal, he, requestsOf, effectsOf, requestEffects]
    | some a =>
      by_cases hae : a = []
      · exfalso; apply hne
        simp [requestWithdrawal, he, hae, requestsOf, effectsOf, requestEffects]
      · cases hp : parseFloatJs a with
        | none =>
          have hne2 : requestsOf (requestWithdrawalFetch env none
              (FetchResult.success ⟨false, m⟩)) ≠ [] := by
            intro h0; apply hne
            simp [requestWithdrawal, he, hae, hp, h0]
          have := requestWithdrawalFetch_failure_toast env none m hne2
          simpa [requestWithdrawal, he, hae, hp] using this
        | some qa =>
          by_cases hq : qa ≤ 0
          · exfalso; apply hne
            simp [requestWithdrawal, he, hae, hp, hq, requestsOf, effectsOf,
              requestEffects]
          · have hne2 : requestsOf (requestWithdrawalFetch env (some qa)
                (FetchResult.success ⟨false, m⟩)) ≠ [] := by
              intro h0; apply hne
              simp [requestWithdrawal, he, hae, hp, hq, h0]
            have := requestWithdrawalFetch_failure_toast env (some qa) m hne2
            simpa [requestWithdrawal, he, hae, hp, hq] using this
  · intro hne
    by_cases hb : env.bankFormPresent
    · cases hg : getCookie env.cookie csrfCookieName with
      | error e =>
        exfalso; apply hne
        simp [updateBankDetails, hb, hg, requestsOf, effectsOf, requestEffects]
      | ok token =>
        simp [updateBankDetails, hb, hg, effectsOf, updateBankDetailsHandler]
    · exfalso; apply hne
      simp [updateBankDetails, hb, requestsOf, effectsOf, requestEffects]
  · by_cases hq : q < 1
    · simp [updateQuantity, hq, effectsOf]
    · cases hg : getCookie env.cookie csrfCookieName with
      | error e => simp [updateQuantity, hq, hg, effectsOf]
      | ok token =>
        simp [updateQuantity, hq, hg, effectsOf, updateQuantityHandler, isToast]
  · by_cases hc : env.confirmResult
    · cases hg : getCookie env.cookie csrfCookieName with
      | error e => simp [removeFromCart, hc, hg, effectsOf]
      | ok token =>
        simp [removeFromCart, hc, hg, effectsOf, removeFromCartHandler, isToast]
    · simp [removeFromCart, hc, effectsOf]

/-- Witness for the amended C2: under `env0` a failing coupon response
with a server message produces that message as a danger toast. -/
theorem success_false_toast_behaviour_witness :
    Effect.toast (orDefault (some (("No such coupon").data)) (("Invalid coupon").data))
      (("danger").data) ∈
      effectsOf (applyCoupon env0
        (FetchResult.success ⟨false, some (("No such coupon").data)⟩)) :=
  (success_false_toast_behaviour env0 (("5").data) (("7").data) (("9").data) 2
    (some (("No such coupon").data))).2.1 (by decide)

/-- C8: when the server answers `applyCoupon` with
`{success:false, message:"Coupon expired"}`, a danger toast with text
`"Coupon expired"` is shown and no page reload is triggered. -/
theorem applyCoupon_expired_coupon (env : Env)
    (hne : requestsOf (applyCoupon env
      (FetchResult.success ⟨false, some (("Coupon expired").data)⟩)) ≠ []) :
    Effect.toast (("Coupon expired").data) (("danger").data) ∈
      effectsOf (applyCoupon env
        (FetchResult.success ⟨false, some (("Coupon expired").data)⟩)) ∧
    (effectsOf (applyCoupon env
      (FetchResult.success ⟨false, some (("Coupon expired").data)⟩))).all
      (fun e => !(isReloadEffect e)) = true := by
  have hod : orDefault (some (("Coupon expired").data)) (("Invalid coupon").data) =
      ("Coupon expired").data := rfl
  cases he : env.elements (("coupon_code").data) with
  | none =>
    exfalso; apply hne
    simp [applyCoupon, he, requestsOf, effectsOf, requestEffects]
  | some c =>
    by_cases hce : c = []
    · exfalso; apply hne
      simp [applyCoupon, he, hce, requestsOf, effectsOf, requestEffects]
    · cases hg : getCookie env.cookie csrfCookieName with
      | error e =>
        exfalso; apply hne
        simp [applyCoupon, he, hce, hg, requestsOf, effectsOf, requestEffects]
      | ok token =>
        constructor
        · simp [applyCoupon, he, hce, hg, effectsOf, applyCouponHandler, hod]
        · simp [applyCoupon, he, hce, hg, effectsOf, applyCouponHandler,
            isReloadEffect]

/-- Witness for C8 under `env0`. -/
theorem applyCoupon_expired_coupon_witness :
    Effect.toast (("Coupon expired").data) (("danger").data) ∈
      effectsOf (applyCoupon env0
        (FetchResult.success ⟨false, some (("Coupon expired").data)⟩)) :=
  (applyCoupon_expired_coupon env0 (by decide)).1

/-- C9: when the server answers `addToCart` with `{success:true}` and no
message, the default success toast (`'Product added to cart!'`) is
shown, the cart counter is updated in place, and no page reload is
triggered. -/
theorem addToCart_success_updates_counter (env : Env) (productId : List Char)
    (hne : requestsOf (addToCart env productId
      (FetchResult.success ⟨true, none⟩)) ≠ []) :
    Effect.toast (("Product added to cart!").data) (("success").data) ∈
      effectsOf (addToCart env productId (FetchResult.success ⟨true, none⟩)) ∧
    Effect.updateCartCount ∈
      effectsOf (addToCart env productId (FetchResult.success ⟨true, none⟩)) ∧
    (effectsOf (addToCart env productId (FetchResult.success ⟨true, none⟩))).all
      (fun e => !(isReloadEffect e)) = true := by
  cases hg : getCookie env.cookie csrfCookieName with
  | error e =>
    exfalso; apply hne
    simp [addToCart, hg, requestsOf, effectsOf, requestEffects]
  | ok token =>
    refine ⟨?_, ?_, ?_⟩ <;>
      simp [addToCart, hg, effectsOf, addToCartHandler, isReloadEffect]

/-- Witness for C9 under `env0`. -/
theorem addToCart_success_updates_counter_witness :
    Effect.updateCartCount ∈
      effectsOf (addToCart env0 (("5").data) (FetchResult.success ⟨true, none⟩)) :=
  (addToCart_success_updates_counter env0 (("5").data) (by decide)).2.1

/-- C10: when the quantity input `quantity_<productId>` is absent from
the page or holds the empty string, `addToCart` issues its request with
the quantity defaulted to 1. -/
theorem addToCart_default_quantity (env : Env) (productId : List Char)
    (resp : FetchResult)
    (h : env.elements ((("quantity_").data) ++ productId) = none ∨
         env.elements ((("quantity_").data) ++ productId) = some []) :
    ∀ r ∈ requestsOf (addToCart env productId resp),
      r.body = some (ReqBody.quantity (some 1)) := by
  intro r hr
  cases hg : getCookie env.cookie csrfCookieName with
  | error e => simp [addToCart, hg, requestsOf, effectsOf, requestEffects] at hr
  | ok token =>
    simp [addToCart, hg, requestsOf, effectsOf,
      requestEffects_cons_request, requestEffects_addToCartHandler resp] at hr
    subst hr
    rcases h with h | h
    · have h2 : env.elements
          ('q' :: 'u' :: 'a' :: 'n' :: 't' :: 'i' :: 't' :: 'y' :: '_' :: productId) = none := h
      simp [h2]
    · have h2 : env.elements
          ('q' :: 'u' :: 'a' :: 'n' :: 't' :: 'i' :: 't' :: 'y' :: '_' :: productId) = some [] := h
      simp [h2]

/-- Witness for C10: under `env0` (no quantity input on the page) the
issued request's quantity is 1. -/
theorem addToCart_default_quantity_witness :
    addReq05.body = some (ReqBody.quantity (some 1)) :=
  addToCart_default_quantity env0 (("5").data) (FetchResult.success ⟨true, none⟩)
    (Or.inl (by decide)) addReq05 (by decide)

end Emerald
